import Mathlib

/-!
# A shallow embedding of the `queuectl` job-queue engine

This file embeds, in Lean 4, the persistent job model and the queue-engine
operations of the `queuectl` repository (`src/queuectl/storage.py`,
`src/queuectl/worker.py`, `src/queuectl/cli.py`) and proves properties of
the embedded operations.

Modelling conventions:
* The SQLite `jobs` table is a `List Job` in row (insertion) order; an SQL
  `UPDATE … WHERE id = ?` is a `List.map` that rewrites the matching rows,
  `DELETE … WHERE id = ?` is a `List.filter`, and `SELECT … WHERE id = ?`
  with `fetchone` is `List.find?`.
* ISO-8601 UTC timestamp strings compare like the instants they denote, so
  timestamps are modelled as rationals (seconds); `_add_seconds` becomes
  rational addition.  Python floats (`backoff_seconds`, `backoff_base`) are
  modelled as rationals as well.
* All calls to `utc_now_str()` made during one storage operation are
  identified with that operation's `now` timestamp: the source re-reads the
  wall clock (e.g. in `mark_job_failed` when `backoff_seconds <= 0`), and the
  sub-microsecond difference is below the granularity of this model.
* Python strings are Lean `String`s; `s[:512]` is `List.take 512` on the
  character list, `str.strip()` drops leading and trailing whitespace.
-/

/-- The five job lifecycle states of `queuectl/constants.py`
(`STATE_PENDING`, `STATE_PROCESSING`, `STATE_COMPLETED`, `STATE_FAILED`,
`STATE_DEAD`). -/
inductive JobState where
  | pending
  | processing
  | completed
  | failed
  | dead
deriving DecidableEq, Repr

/-- One row of the `jobs` table (schema in `storage.init_db`):
`id`, `command`, `state`, `attempts`, `max_retries`, `created_at`,
`updated_at`, `available_at`, `processing_started_at`, `completed_at`,
`last_error`.  Timestamps are rationals, nullable columns are `Option`. -/
structure Job where
  id : String
  command : String
  state : JobState
  attempts : Int
  maxRetries : Int
  createdAt : ℚ
  updatedAt : ℚ
  availableAt : ℚ
  processingStartedAt : Option ℚ
  completedAt : Option ℚ
  lastError : Option String
deriving DecidableEq, Repr

/-- The `jobs` table: rows in insertion order. -/
abbrev Store := List Job

/-- Embeds `storage.get_job`: `SELECT * FROM jobs WHERE id = ?` + `fetchone`. -/
def getJob (jobId : String) (store : Store) : Option Job :=
  store.find? fun r => r.id = jobId

/-- An SQL `UPDATE jobs SET … WHERE id = ?`: rewrite every row whose `id`
matches (ids are the primary key, so at most one row) with `g`. -/
def updateById (jobId : String) (g : Job → Job) (store : Store) : Store :=
  store.map fun r => if r.id = jobId then g r else r

/-- Embeds `storage.delete_job`: `DELETE FROM jobs WHERE id = ?`.  The statement
matches zero rows without error, so the function is total. -/
def deleteJob (jobId : String) (store : Store) : Store :=
  store.filter fun r => ¬ r.id = jobId

/-- Python's `s[:512]`, used by `mark_job_failed` on the `error` argument. -/
def pySlice512 (s : String) : String :=
  String.mk (s.data.take 512)

/-- Embeds `storage.mark_job_completed`: `UPDATE jobs SET state = completed,
attempts = ?, completed_at = now, updated_at = now WHERE id = ?`. -/
def markJobCompleted (jobId : String) (attempts : Int) (now : ℚ)
    (store : Store) : Store :=
  updateById jobId (fun r =>
    { r with state := .completed, attempts := attempts,
             completedAt := some now, updatedAt := now }) store

/-- Embeds `storage.mark_job_failed`.  The source computes
`next_available = utc_now_str() if backoff_seconds <= 0 else _add_seconds(now, backoff_seconds)`
and `new_state = STATE_FAILED if attempts < max_retries else STATE_DEAD`,
then updates `state, attempts, updated_at, available_at, last_error` of the
matching row (`last_error` truncated to `error[:512]`).  Per the time model
above, the fresh `utc_now_str()` in the non-positive-backoff branch is
identified with `now`. -/
def markJobFailed (jobId : String) (attempts maxRetries : Int)
    (error : String) (now : ℚ) (backoffSeconds : ℚ) (store : Store) : Store :=
  let nextAvailable : ℚ := if backoffSeconds ≤ 0 then now else now + backoffSeconds
  let newState : JobState := if attempts < maxRetries then .failed else .dead
  updateById jobId (fun r =>
    { r with state := newState, attempts := attempts, updatedAt := now,
             availableAt := nextAvailable, lastError := some (pySlice512 error) }) store

/-- Embeds `storage.reset_job`: `UPDATE jobs SET state = pending, attempts = 0,
updated_at = now, available_at = now WHERE id = ?`. -/
def resetJob (jobId : String) (now : ℚ) (store : Store) : Store :=
  updateById jobId (fun r =>
    { r with state := .pending, attempts := 0, updatedAt := now,
             availableAt := now }) store

/-! ## Generic lemmas about `updateById`, `getJob`, `deleteJob` -/

theorem getJob_eq_none_iff (jobId : String) (store : Store) :
    getJob jobId store = none ↔ ∀ r ∈ store, r.id ≠ jobId := by
  unfold getJob
  rw [List.find?_eq_none]
  constructor
  · intro h r hr
    have := h r hr
    simpa using this
  · intro h r hr
    simpa using h r hr

theorem updateById_of_absent (jobId : String) (g : Job → Job) (store : Store)
    (h : getJob jobId store = none) : updateById jobId g store = store := by
  have h' := (getJob_eq_none_iff jobId store).mp h
  unfold updateById
  conv_rhs => rw [← List.map_id store]
  refine List.map_congr_left ?_
  intro r hr
  simp [h' r hr]

theorem getJob_updateById (jobId : String) (g : Job → Job) (store : Store)
    (hg : ∀ r, (g r).id = r.id) :
    getJob jobId (updateById jobId g store) = (getJob jobId store).map g := by
  unfold getJob updateById
  induction store with
  | nil => simp
  | cons r rest ih =>
    by_cases hid : r.id = jobId
    · simp [List.find?, hid, hg]
    · simp only [List.map_cons, List.find?]
      simp [hid, ih]

theorem updateById_idem (jobId : String) (g : Job → Job) (store : Store)
    (hg : ∀ r, (g r).id = r.id) (hgg : ∀ r, g (g r) = g r) :
    updateById jobId g (updateById jobId g store) = updateById jobId g store := by
  unfold updateById
  rw [List.map_map]
  refine List.map_congr_left ?_
  intro r _
  by_cases hid : r.id = jobId
  · simp [hid, hg, hgg]
  · simp [hid]

/-! ## Job acquisition (`storage.acquire_next_job`) -/

/-- The record `storage.AcquiredJob`: the columns returned by the claim
query (`id, command, attempts, max_retries`, read before the update). -/
structure AcquiredJob where
  id : String
  command : String
  attempts : Int
  maxRetries : Int
deriving DecidableEq, Repr

/-- The `WHERE` clause of the claim query:
`state IN (pending, failed) AND available_at <= now`. -/
def isEligible (now : ℚ) (r : Job) : Bool :=
  (r.state = JobState.pending ∨ r.state = JobState.failed) ∧ r.availableAt ≤ now

/-- Embeds `ORDER BY created_at LIMIT 1` over a non-empty candidate list: keep the
earliest `created_at`, breaking ties in favour of the earlier row (the
store's scan order; the spec leaves the tie-break unconstrained). -/
def selectMin (best : Job) : List Job → Job
  | [] => best
  | r :: rest => selectMin (if r.createdAt < best.createdAt then r else best) rest

/-- The `SELECT … WHERE state IN (pending, failed) AND available_at <= now
ORDER BY created_at LIMIT 1` of `acquire_next_job`. -/
def selectNext (now : ℚ) (store : Store) : Option Job :=
  match store.filter (isEligible now) with
  | [] => none
  | r :: rest => some (selectMin r rest)

/-- Embeds `storage.acquire_next_job`: inside one `BEGIN IMMEDIATE` transaction,
select the next eligible row; if none, return `None` leaving the table
untouched; else set `state = processing, processing_started_at = now,
updated_at = now` on that row and return its previously-read
`{id, command, attempts, max_retries}`. -/
def acquireNextJob (now : ℚ) (store : Store) : Option AcquiredJob × Store :=
  match selectNext now store with
  | none => (none, store)
  | some r =>
      (some ⟨r.id, r.command, r.attempts, r.maxRetries⟩,
       updateById r.id (fun j =>
         { j with state := .processing, processingStartedAt := some now,
                  updatedAt := now }) store)

theorem selectMin_mem (best : Job) (l : List Job) :
    selectMin best l ∈ best :: l := by
  induction l generalizing best with
  | nil => simp [selectMin]
  | cons r rest ih =>
    by_cases h : r.createdAt < best.createdAt
    · have := ih r
      simp only [selectMin, if_pos h]
      rcases List.mem_cons.mp this with h' | h'
      · simp [h']
      · simp [List.mem_cons, h']
    · have := ih best
      simp only [selectMin, if_neg h]
      rcases List.mem_cons.mp this with h' | h'
      · simp [h']
      · simp [List.mem_cons, h']

theorem selectMin_le (best : Job) (l : List Job) :
    (selectMin best l).createdAt ≤ best.createdAt ∧
      ∀ r ∈ l, (selectMin best l).createdAt ≤ r.createdAt := by
  induction l generalizing best with
  | nil => simp [selectMin]
  | cons r rest ih =>
    by_cases h : r.createdAt < best.createdAt
    · have ⟨h1, h2⟩ := ih r
      refine ⟨by simpa [selectMin, if_pos h] using le_trans h1 (le_of_lt h), ?_⟩
      intro x hx
      simp only [selectMin, if_pos h]
      rcases List.mem_cons.mp hx with h' | h'
      · exact h' ▸ h1
      · exact h2 x h'
    · have ⟨h1, h2⟩ := ih best
      push_neg at h
      refine ⟨by simpa [selectMin, if_neg (not_lt.mpr h)] using h1, ?_⟩
      intro x hx
      simp only [selectMin, if_neg (not_lt.mpr h)]
      rcases List.mem_cons.mp hx with h' | h'
      · exact h' ▸ le_trans h1 h
      · exact h2 x h'

theorem selectNext_spec (now : ℚ) (store : Store) (r : Job)
    (h : selectNext now store = some r) :
    r ∈ store ∧ isEligible now r = true ∧
      ∀ x ∈ store, isEligible now x = true → r.createdAt ≤ x.createdAt := by
  unfold selectNext at h
  rcases hf : store.filter (isEligible now) with _ | ⟨b, rest⟩
  · rw [hf] at h; exact absurd h (by simp)
  · rw [hf] at h
    have hr : r = selectMin b rest := by simpa using h.symm
    have hmem : r ∈ b :: rest := hr ▸ selectMin_mem b rest
    have hmemf : r ∈ store.filter (isEligible now) := by rw [hf]; exact hmem
    have hmem' := List.mem_filter.mp hmemf
    refine ⟨hmem'.1, hmem'.2, ?_⟩
    intro x hx hex
    have hxf : x ∈ store.filter (isEligible now) := List.mem_filter.mpr ⟨hx, hex⟩
    rw [hf] at hxf
    have ⟨h1, h2⟩ := selectMin_le b rest
    rcases List.mem_cons.mp hxf with h' | h'
    · exact hr ▸ h' ▸ h1
    · exact hr ▸ h2 x h'

theorem selectNext_isSome (now : ℚ) (store : Store)
    (h : ∃ x ∈ store, isEligible now x = true) :
    ∃ r, selectNext now store = some r := by
  obtain ⟨x, hx, hex⟩ := h
  have : x ∈ store.filter (isEligible now) := List.mem_filter.mpr ⟨hx, hex⟩
  unfold selectNext
  rcases hf : store.filter (isEligible now) with _ | ⟨b, rest⟩
  · rw [hf] at this; exact absurd this (by simp)
  · exact ⟨selectMin b rest, rfl⟩

/-! ## The worker's failure classification (`worker.Worker.run`) -/

/-- Python's `str.strip()`: remove leading and trailing whitespace. -/
def pyStrip (s : String) : String :=
  String.mk (((s.data.dropWhile Char.isWhitespace).reverse.dropWhile
    Char.isWhitespace).reverse)

/-- Python's `a or b` on an optional string (`None` and `""` are falsy),
as in `error_message or f"Command failed with exit code {exit_code}"`. -/
def pyOrStr (a : Option String) (b : String) : String :=
  match a with
  | none => b
  | some s => if s = "" then b else s

/-- Outcome of `subprocess.run(job.command, shell=True, …, timeout=3600)`
in `Worker.run`: either the subprocess ran and returned an exit code with
captured stdout/stderr, or one of the exceptional paths of the
`try/except` ladder was taken. -/
inductive ExecOutcome where
  | ran (exitCode : Int) (stdout stderr : String)
  | timeout
  | notFound
  | permissionDenied
  | other (msg : String)
deriving DecidableEq, Repr

/-- The `try/except` ladder of `Worker.run` (lines 79–120): computes the
pair `(exit_code, error_message)` for an execution outcome.  In the ran
branch, `stdout`/`stderr` fall back via Python `or`-truthiness to a
synthetic message, which is replaced by a second synthetic message when it
strips to the empty string.  The exceptional branches set the fixed
messages and exit codes of the source. -/
def classify (command : String) : ExecOutcome → Int × Option String
  | .ran ec sout serr =>
      if ec = 0 then (0, none)
      else
        let m := if serr ≠ "" then serr
                 else if sout ≠ "" then sout
                 else "Command exited with code " ++ toString ec
        (ec, some (if pyStrip m = "" then
            "Command failed with exit code " ++ toString ec ++ " (no error output)"
          else m))
  | .timeout => (-1, some "Command execution timed out after 1 hour")
  | .notFound =>
      (127, some ("Command not found: " ++ "'" ++ command ++ "'" ++
        ". The command or executable does not exist."))
  | .permissionDenied =>
      (126, some ("Permission denied executing command: " ++ "'" ++ command ++ "'"))
  | .other msg => (-1, some ("Error executing command: " ++ msg))

/-- The post-execution update of one `Worker.run` loop iteration
(lines 75–138): increment `attempts`, classify the outcome; on exit code 0
call `mark_job_completed`, otherwise compute
`backoff_seconds = backoff_base ** attempts`, decide
`should_retry = attempts < job.max_retries`, and call `mark_job_failed`
with `backoff_seconds if should_retry else 0`.  (Log writes are I/O and
not modelled.) -/
def workerStep (acq : AcquiredJob) (backoffBase : ℚ) (outcome : ExecOutcome)
    (now : ℚ) (store : Store) : Store :=
  let attempts : Int := acq.attempts + 1
  let c := classify acq.command outcome
  if c.1 = 0 then
    markJobCompleted acq.id attempts now store
  else
    let backoffSeconds : ℚ := backoffBase ^ attempts
    let shouldRetry : Prop := attempts < acq.maxRetries
    markJobFailed acq.id attempts acq.maxRetries
      (pyOrStr c.2 ("Command failed with exit code " ++ toString c.1))
      now (if shouldRetry then backoffSeconds else 0) store

/-! ## The worker's stop check (`worker.Worker._should_stop`) -/

/-- A JSON value, as produced by `json.load` on the worker control file. -/
inductive JVal where
  | null
  | bool (b : Bool)
  | int (n : Int)
  | str (s : String)
  | arr (elems : List JVal)
  | obj (fields : List (String × JVal))

/-- Python truthiness of a JSON value (`bool(...)`). -/
def JVal.truthy : JVal → Bool
  | .null => false
  | .bool b => b
  | .int n => n ≠ 0
  | .str s => s ≠ ""
  | .arr l => !l.isEmpty
  | .obj l => !l.isEmpty

/-- Python `dict.get(key)` on a JSON object (association list with
distinct keys): the value at `key`, or `None` when absent. -/
def dictGet (fields : List (String × JVal)) (key : String) : Option JVal :=
  (fields.find? fun p => p.1 = key).map fun p => p.2

/-- Python `bool(payload.get("stop"))`: `bool(None)` is `False`. -/
def stopFieldTruthy (fields : List (String × JVal)) : Bool :=
  match dictGet fields "stop" with
  | none => false
  | some v => v.truthy

/-- The uncaught Python exception raised by `payload.get("stop")` when
`payload` is not a `dict`. -/
inductive RuntimeErr where
  | attributeError
deriving DecidableEq, Repr

/-- Embeds `Worker._should_stop`.  The control-file argument models the
file system state: `none` — the file does not exist; `some (.error ())` —
`json.load` raises `JSONDecodeError` (caught: treated as no stop);
`some (.ok v)` — the file parses to the JSON value `v`.  The source then
evaluates `bool(payload.get("stop"))`, which raises `AttributeError`
(uncaught) when the parsed value is not an object. -/
def shouldStop (stopRequested : Bool)
    (controlFile : Option (Except Unit JVal)) : Except RuntimeErr Bool :=
  if stopRequested then .ok true
  else
    match controlFile with
    | none => .ok false
    | some (.error _) => .ok false
    | some (.ok (.obj fields)) => .ok (stopFieldTruthy fields)
    | some (.ok _) => .error .attributeError

/-! ## The CLI enqueue path (`cli.enqueue` + `storage.enqueue_job`) -/

/-- The job payload dictionary assembled by `cli.enqueue`, restricted to
the keys the engine reads (`id`, `command`, `state`, `attempts`,
`max_retries`, `created_at`, `updated_at`, `available_at`,
`processing_started_at`, `completed_at`, `last_error`); a `none` field is
an absent key.  Field values are given at the types the engine stores
(payloads carrying other JSON types for these keys are outside this
embedding).  Unrecognized payload keys are never read by the engine. -/
structure Payload where
  id : Option String := none
  command : Option String := none
  state : Option JobState := none
  attempts : Option Int := none
  maxRetries : Option Int := none
  createdAt : Option ℚ := none
  updatedAt : Option ℚ := none
  availableAt : Option ℚ := none
  processingStartedAt : Option ℚ := none
  completedAt : Option ℚ := none
  lastError : Option String := none
deriving DecidableEq, Repr

/-- A `typer.BadParameter` usage error (the spec's `InvalidArgument` /
`AlreadyExists`). -/
inductive CliError where
  | badParameter (msg : String)
deriving DecidableEq, Repr

/-- Embeds `storage.enqueue_job`: builds the row tuple with the source's
defaults (`available_at = job.get("available_at") or now`,
`state = job.get("state", pending)`, `attempts = int(job.get("attempts", 0))`,
`max_retries = int(job.get("max_retries", 3))`, timestamps defaulting to
`now`) and inserts it.  `job["id"]` / `job["command"]` are direct dict
reads; every caller supplies them, and the unreachable `KeyError` path is
rendered as `""`.  The `PRIMARY KEY` uniqueness failure of the `INSERT` is
not modelled; `cli.enqueue` checks for an existing id first. -/
def enqueueJob (job : Payload) (now : ℚ) (store : Store) : Store :=
  let availableAt : ℚ := job.availableAt.getD now
  store ++ [{
    id := job.id.getD "",
    command := job.command.getD "",
    state := job.state.getD .pending,
    attempts := job.attempts.getD 0,
    maxRetries := job.maxRetries.getD 3,
    createdAt := job.createdAt.getD now,
    updatedAt := job.updatedAt.getD now,
    availableAt := availableAt,
    processingStartedAt := job.processingStartedAt,
    completedAt := job.completedAt,
    lastError := job.lastError }]

/-- Embeds the `cli.enqueue` command body.  `jsonPayload` is the parsed
`job_json` argument (`{}` — the all-`none` payload — when absent);
`idOpt`/`commandOpt`/`maxRetriesOpt` are the `--id`, `--command` and
`--max-retries` options; `genId` is the value `generate_job_id()` would
return, `cfgMaxRetries` the configured `max_retries_default`, `now` the
wall clock.  Mirrors the source line by line: truthy options overwrite the
payload, a missing `command` key raises `BadParameter`, a missing `id` is
generated, an existing job id raises `BadParameter`, the remaining fields
are `setdefault`-ed and the record is inserted.  On success, returns the
new store and the enqueued job id; an error aborts before the only write. -/
def cliEnqueue (jsonPayload : Payload) (idOpt commandOpt : Option String)
    (maxRetriesOpt : Option Int) (genId : String) (cfgMaxRetries : Int)
    (now : ℚ) (store : Store) : Except CliError (Store × String) :=
  let p0 := match idOpt with
            | some s => if s ≠ "" then { jsonPayload with id := some s } else jsonPayload
            | none => jsonPayload
  let p1 := match commandOpt with
            | some s => if s ≠ "" then { p0 with command := some s } else p0
            | none => p0
  if p1.command = none then .error (.badParameter "Command is required")
  else
    let p2 := if p1.id = none then { p1 with id := some genId } else p1
    let jobId := p2.id.getD ""
    match getJob jobId store with
    | some _ => .error (.badParameter ("Job " ++ jobId ++ " already exists"))
    | none =>
        let p3 := { p2 with state := some (p2.state.getD .pending) }
        let p4 := { p3 with attempts := some (p3.attempts.getD 0) }
        let p5 := match maxRetriesOpt with
                  | some m => { p4 with maxRetries := some m }
                  | none => { p4 with maxRetries := some (p4.maxRetries.getD cfgMaxRetries) }
        let createdAt : ℚ := p5.createdAt.getD now
        let p6 := { p5 with createdAt := some createdAt }
        let p7 := { p6 with updatedAt := some (p6.updatedAt.getD createdAt) }
        let p8 := { p7 with availableAt := some (p7.availableAt.getD createdAt) }
        .ok (enqueueJob p8 now store, jobId)

/-! ## String helper lemmas -/

theorem ne_empty_of_length_pos (s : String) (h : 0 < s.length) : s ≠ "" := by
  intro he
  rw [he] at h
  exact absurd h (by decide)

theorem append_ne_empty_left (a b : String) (ha : a ≠ "") : a ++ b ≠ "" := by
  apply ne_empty_of_length_pos
  rw [String.length_append]
  have : 0 < a.length := by
    by_contra hn
    push_neg at hn
    have h0 : a.length = 0 := Nat.le_zero.mp hn
    apply ha
    cases a with
    | mk data =>
      cases data with
      | nil => rfl
      | cons c cs => simp [String.length] at h0
  omega

theorem pySlice512_length_le (s : String) : (pySlice512 s).length ≤ 512 := by
  show (s.data.take 512).length ≤ 512
  rw [List.length_take]
  exact min_le_left _ _

theorem pySlice512_ne_empty (s : String) (h : s ≠ "") : pySlice512 s ≠ "" := by
  have hd : s.data ≠ [] := by
    intro hnil
    exact h (String.ext (by rw [hnil]))
  intro he
  have : s.data.take 512 = [] := congrArg String.data he
  rcases List.take_eq_nil_iff.mp this with h5 | h5
  · exact absurd h5 (by decide)
  · exact hd h5

theorem pyStrip_empty : pyStrip "" = "" := rfl

theorem pyOrStr_of_ne_empty (a : String) (b : String) (h : a ≠ "") :
    pyOrStr (some a) b = a := by
  simp [pyOrStr, h]

/-! ## Claim theorems -/

/-- C9: for every id, after `delete_job(id)`, `get_job(id)` returns absent,
and a subsequent `delete_job(id)` on the now-absent id is a no-op that
raises no error (the store-layer `DELETE` matches zero rows; `deleteJob`
is total, so no failure path exists). -/
theorem delete_then_get_absent_and_idempotent (jobId : String) (store : Store) :
    getJob jobId (deleteJob jobId store) = none
    ∧ deleteJob jobId (deleteJob jobId store) = deleteJob jobId store := by
  constructor
  · rw [getJob_eq_none_iff]
    intro r hr
    have := (List.mem_filter.mp hr).2
    simpa using this
  · unfold deleteJob
    rw [List.filter_filter]
    refine List.filter_congr ?_
    intro r hr
    simp

/-- C10: for every job id not present in the store, `mark_job_completed`,
`mark_job_failed` and `reset_job` return without error and leave every row
unchanged (their `UPDATE … WHERE id = ?` matches zero rows; no `NotFound`
is raised at the store layer). -/
theorem mutators_on_absent_id_are_noops (jobId : String)
    (attempts maxRetries : Int) (error : String) (now backoff : ℚ)
    (store : Store) (h : getJob jobId store = none) :
    markJobCompleted jobId attempts now store = store
    ∧ markJobFailed jobId attempts maxRetries error now backoff store = store
    ∧ resetJob jobId now store = store :=
  ⟨updateById_of_absent _ _ _ h, updateById_of_absent _ _ _ h,
   updateById_of_absent _ _ _ h⟩


/-- A sample pending job used as concrete input by witnesses. -/
def sampleJob : Job :=
  { id := "a", command := "true", state := .pending, attempts := 0,
    maxRetries := 3, createdAt := 0, updatedAt := 0, availableAt := 0,
    processingStartedAt := none, completedAt := none, lastError := none }

/-- Witness for C10: on the one-job store `[sampleJob]` (id `"a"`), the
three mutators leave the store unchanged for the absent id `"b"`. -/
theorem mutators_on_absent_id_are_noops_witness :
    getJob "b" [sampleJob] = none
    ∧ (markJobCompleted "b" 1 5 [sampleJob] = [sampleJob]
    ∧ markJobFailed "b" 1 3 "boom" 5 2 [sampleJob] = [sampleJob]
    ∧ resetJob "b" 5 [sampleJob] = [sampleJob]) :=
  ⟨by decide, mutators_on_absent_id_are_noops "b" 1 3 "boom" 5 2 [sampleJob] (by decide)⟩

/-- A sample dead job with a recorded `last_error`, used by witnesses. -/
def deadJob : Job :=
  { sampleJob with state := .dead, attempts := 4, lastError := some "boom" }

/-- C6: for every existing job and timestamp `now`, `reset_job` sets
`state = pending`, `attempts = 0`, `updated_at = now`, `available_at = now`
and leaves every other column — in particular `last_error` — unchanged;
consequently applying `reset_job` twice with the same `now` yields the same
store as applying it once. -/
theorem resetJob_fields_and_idempotent (jobId : String) (now : ℚ)
    (store : Store) (j : Job) (h : getJob jobId store = some j) :
    getJob jobId (resetJob jobId now store) =
      some { j with state := .pending, attempts := 0, updatedAt := now,
                    availableAt := now }
    ∧ resetJob jobId now (resetJob jobId now store) = resetJob jobId now store := by
  constructor
  · unfold resetJob
    rw [getJob_updateById jobId
      (fun r => { r with state := .pending, attempts := 0, updatedAt := now,
                         availableAt := now }) store (fun r => rfl), h]
    rfl
  · exact updateById_idem _ _ _ (fun r => rfl) (fun r => rfl)

/-- Witness for C6: resetting the store `[deadJob]` (id `"a"`,
`last_error = "boom"`) at time 7 pends the job, zeroes `attempts`, retains
`last_error`, and is idempotent. -/
theorem resetJob_fields_and_idempotent_witness :
    getJob "a" [deadJob] = some deadJob
    ∧ (getJob "a" (resetJob "a" 7 [deadJob]) =
        some { deadJob with state := JobState.pending, attempts := 0,
                            updatedAt := 7, availableAt := 7 }
    ∧ resetJob "a" 7 (resetJob "a" 7 [deadJob]) = resetJob "a" 7 [deadJob]) :=
  ⟨by decide, resetJob_fields_and_idempotent "a" 7 [deadJob] deadJob (by decide)⟩

/-- C4: for every store and timestamp `now` in which no job is eligible
(state in `{pending, failed}` with `available_at ≤ now`), `claim_next`
returns absent and every job row is unchanged. -/
theorem claimNext_empty_returns_absent_and_frames (now : ℚ) (store : Store)
    (h : ∀ r ∈ store, isEligible now r = false) :
    acquireNextJob now store = (none, store) := by
  unfold acquireNextJob
  have hnone : selectNext now store = none := by
    unfold selectNext
    have hf : store.filter (isEligible now) = [] := by
      rw [List.filter_eq_nil_iff]
      intro r hr
      simp [h r hr]
    rw [hf]
  rw [hnone]

/-- A store with one completed and one processing job: nothing eligible. -/
def busyStore : Store :=
  [{ sampleJob with state := .completed },
   { sampleJob with id := "b", state := .processing }]

/-- Witness for C4: `busyStore` has no eligible row at time 9, so
`claim_next` returns absent and leaves the store unchanged. -/
theorem claimNext_empty_returns_absent_and_frames_witness :
    (∀ r ∈ busyStore, isEligible 9 r = false)
    ∧ acquireNextJob 9 busyStore = (none, busyStore) :=
  ⟨by decide, claimNext_empty_returns_absent_and_frames 9 busyStore (by decide)⟩

/-- C2: for every store and timestamp `now` with at least one eligible
job, `claim_next` selects a job with state in `{pending, failed}` and
`available_at ≤ now` of minimal `created_at` (FIFO), sets exactly that
job's `state` to `processing` and its `processing_started_at` and
`updated_at` to `now`, and returns its `{id, command, attempts,
max_retries}` as read before the update. -/
theorem claimNext_selects_fifo_and_claims (now : ℚ) (store : Store)
    (h : ∃ r ∈ store, isEligible now r = true) :
    ∃ j ∈ store, isEligible now j = true
      ∧ (∀ x ∈ store, isEligible now x = true → j.createdAt ≤ x.createdAt)
      ∧ acquireNextJob now store =
          (some ⟨j.id, j.command, j.attempts, j.maxRetries⟩,
           updateById j.id
             (fun r => { r with state := .processing,
                                processingStartedAt := some now,
                                updatedAt := now }) store) := by
  obtain ⟨r, hsel⟩ := selectNext_isSome now store h
  obtain ⟨hmem, he, hmin⟩ := selectNext_spec now store r hsel
  refine ⟨r, hmem, he, hmin, ?_⟩
  unfold acquireNextJob
  rw [hsel]

/-- A store with two eligible jobs where the later row `"b"` has the
earlier `created_at`, plus an ineligible completed row. -/
def fifoStore : Store :=
  [{ sampleJob with createdAt := 5, availableAt := 1 },
   { sampleJob with id := "b", state := .failed, createdAt := 2,
                    availableAt := 3 },
   { sampleJob with id := "c", state := .completed, createdAt := 0 }]

/-- Witness for C2: on `fifoStore` at time 4, an eligible job exists and
the selected FIFO job is claimed as the theorem states. -/
theorem claimNext_selects_fifo_and_claims_witness :
    (∃ r ∈ fifoStore, isEligible 4 r = true)
    ∧ ∃ j ∈ fifoStore, isEligible 4 j = true
      ∧ (∀ x ∈ fifoStore, isEligible 4 x = true → j.createdAt ≤ x.createdAt)
      ∧ acquireNextJob 4 fifoStore =
          (some ⟨j.id, j.command, j.attempts, j.maxRetries⟩,
           updateById j.id
             (fun r => { r with state := .processing,
                                processingStartedAt := some 4,
                                updatedAt := 4 }) fifoStore) :=
  ⟨by decide, claimNext_selects_fifo_and_claims 4 fifoStore (by decide)⟩

/-- Counterexample for C1: on a one-job store, `mark_job_failed` with the
post-increment `attempts = 1` and `max_retries = 1` puts the job in state
`dead`, although `attempts ≤ max_retries` (so the claim's `failed` state,
and its "dead only when attempts > max_retries", both fail at the
boundary `attempts = max_retries`). -/
theorem markFailed_boundary_counterexample :
    (getJob "a" (markJobFailed "a" 1 1 "boom" 6 0 [sampleJob])).map Job.state
      = some JobState.dead
    ∧ ((1 : Int) ≤ 1 ∧ ¬ ((1 : Int) > 1))
    ∧ JobState.dead ≠ JobState.failed := by decide

/-- C1 (amended): for every call to `mark_failed` with a post-increment
`attempts` value, the job's new state is `failed` when
`attempts < max_retries` and `dead` when `attempts ≥ max_retries`; in
particular a job reaches `dead` through `mark_failed` exactly when
`attempts ≥ max_retries` after the failure. -/
theorem markFailed_state_boundary (jobId : String) (attempts maxRetries : Int)
    (error : String) (now backoff : ℚ) (store : Store) (j : Job)
    (h : getJob jobId store = some j) :
    ∃ j', getJob jobId (markJobFailed jobId attempts maxRetries error now backoff store)
        = some j'
      ∧ (j'.state = JobState.failed ↔ attempts < maxRetries)
      ∧ (j'.state = JobState.dead ↔ maxRetries ≤ attempts)
      ∧ j'.attempts = attempts := by
  simp only [markJobFailed]
  rw [getJob_updateById jobId
    (fun r => { r with
        state := if attempts < maxRetries then JobState.failed else JobState.dead,
        attempts := attempts, updatedAt := now,
        availableAt := if backoff ≤ 0 then now else now + backoff,
        lastError := some (pySlice512 error) })
    store (fun r => rfl), h]
  refine ⟨_, rfl, ?_, ?_, rfl⟩
  · by_cases hlt : attempts < maxRetries
    · simp [hlt]
    · simp [hlt]
  · by_cases hlt : attempts < maxRetries
    · simp [hlt, not_le.mpr hlt]
    · simp [hlt, not_lt.mp hlt]

/-- Witness for C1 (amended): marking `sampleJob` (id `"a"`) failed with
`attempts = 3`, `max_retries = 3` yields a row whose state is `dead`, not
`failed`, with `attempts = 3`. -/
theorem markFailed_state_boundary_witness :
    getJob "a" [sampleJob] = some sampleJob
    ∧ ∃ j', getJob "a" (markJobFailed "a" 3 3 "boom" 6 0 [sampleJob]) = some j'
      ∧ (j'.state = JobState.failed ↔ (3 : Int) < 3)
      ∧ (j'.state = JobState.dead ↔ (3 : Int) ≤ 3)
      ∧ j'.attempts = 3 :=
  ⟨by decide, markFailed_state_boundary "a" 3 3 "boom" 6 0 [sampleJob] sampleJob (by decide)⟩

/-- C3: for every failing attempt `a = attempts + 1` of a job that still
has retries remaining (`a < max_retries`), the worker passes
`backoff_seconds = backoff_base ^ a` to `mark_failed`, which sets
`available_at` to `now + backoff_base ^ a` when that value is positive and
to `now` otherwise; hence the failed-and-retryable job's `available_at` is
at least `now + backoff_base ^ a` at the failing transition. -/
theorem backoff_availableAt (acq : AcquiredJob) (base : ℚ)
    (outcome : ExecOutcome) (now : ℚ) (store : Store) (j : Job)
    (h : getJob acq.id store = some j)
    (hfail : (classify acq.command outcome).1 ≠ 0)
    (hretry : acq.attempts + 1 < acq.maxRetries) :
    ∃ j', getJob acq.id (workerStep acq base outcome now store) = some j'
      ∧ j'.availableAt =
          (if 0 < base ^ (acq.attempts + 1) then now + base ^ (acq.attempts + 1)
           else now)
      ∧ now + base ^ (acq.attempts + 1) ≤ j'.availableAt := by
  simp only [workerStep]
  rw [if_neg hfail, if_pos hretry]
  simp only [markJobFailed]
  rw [getJob_updateById acq.id
    (fun r => { r with
        state := if acq.attempts + 1 < acq.maxRetries then JobState.failed
                 else JobState.dead,
        attempts := acq.attempts + 1, updatedAt := now,
        availableAt := if base ^ (acq.attempts + 1) ≤ 0 then now
                       else now + base ^ (acq.attempts + 1),
        lastError := some (pySlice512 (pyOrStr (classify acq.command outcome).2
          ("Command failed with exit code " ++
            toString (classify acq.command outcome).1))) })
    store (fun r => rfl), h]
  refine ⟨_, rfl, ?_, ?_⟩
  · by_cases hb : base ^ (acq.attempts + 1) ≤ 0
    · simp [hb, not_lt.mpr hb]
    · simp [hb, not_le.mp hb]
  · by_cases hb : base ^ (acq.attempts + 1) ≤ 0
    · simp only [if_pos hb]
      linarith
    · simp only [if_neg hb]
      exact le_refl _

/-- Witness for C3: job `"a"` (0 prior attempts, 2 max retries) fails with
exit code 1 under backoff base 2 at time 10; the theorem yields
`available_at = 10 + 2 ^ 1`. -/
theorem backoff_availableAt_witness :
    getJob "a" [sampleJob] = some sampleJob
    ∧ ((classify "false" (ExecOutcome.ran 1 "" "err")).1 ≠ 0
    ∧ ((0 : Int) + 1 < 2
    ∧ ∃ j', getJob "a" (workerStep ⟨"a", "false", 0, 2⟩ 2
          (ExecOutcome.ran 1 "" "err") 10 [sampleJob]) = some j'
      ∧ j'.availableAt =
          (if 0 < (2 : ℚ) ^ ((0 : Int) + 1) then 10 + (2 : ℚ) ^ ((0 : Int) + 1)
           else 10)
      ∧ 10 + (2 : ℚ) ^ ((0 : Int) + 1) ≤ j'.availableAt)) :=
  ⟨by decide, by decide, by decide,
   backoff_availableAt ⟨"a", "false", 0, 2⟩ 2 (ExecOutcome.ran 1 "" "err") 10
     [sampleJob] sampleJob (by decide) (by decide) (by decide)⟩

/-- Helper: the row written by `mark_job_failed` for an existing job. -/
theorem getJob_markJobFailed (jobId : String) (attempts maxRetries : Int)
    (error : String) (now backoff : ℚ) (store : Store) (j : Job)
    (h : getJob jobId store = some j) :
    getJob jobId (markJobFailed jobId attempts maxRetries error now backoff store)
      = some { j with
          state := if attempts < maxRetries then JobState.failed else JobState.dead,
          attempts := attempts, updatedAt := now,
          availableAt := if backoff ≤ 0 then now else now + backoff,
          lastError := some (pySlice512 error) } := by
  simp only [markJobFailed]
  rw [getJob_updateById jobId
    (fun r => { r with
        state := if attempts < maxRetries then JobState.failed else JobState.dead,
        attempts := attempts, updatedAt := now,
        availableAt := if backoff ≤ 0 then now else now + backoff,
        lastError := some (pySlice512 error) })
    store (fun r => rfl), h]
  rfl

/-- Helper: whenever `classify` reports a non-zero exit code, its error
message is present and non-empty. -/
theorem classify_error_ne_empty (command : String) (o : ExecOutcome)
    (hfail : (classify command o).1 ≠ 0) :
    ∃ s, (classify command o).2 = some s ∧ s ≠ "" := by
  cases o with
  | ran ec sout serr =>
      by_cases hec : ec = 0
      · exact absurd (by simp [classify, hec]) hfail
      · have hM : (classify command (ExecOutcome.ran ec sout serr)).2
            = some (if pyStrip (if serr ≠ "" then serr else if sout ≠ "" then sout
                      else "Command exited with code " ++ toString ec) = ""
                    then "Command failed with exit code " ++ toString ec ++
                      " (no error output)"
                    else (if serr ≠ "" then serr else if sout ≠ "" then sout
                      else "Command exited with code " ++ toString ec)) := by
          simp only [classify]
          rw [if_neg hec]
        refine ⟨_, hM, ?_⟩
        by_cases hs : pyStrip (if serr ≠ "" then serr else if sout ≠ "" then sout
            else "Command exited with code " ++ toString ec) = ""
        · rw [if_pos hs]
          exact append_ne_empty_left _ _ (append_ne_empty_left _ _ (by decide))
        · rw [if_neg hs]
          intro h0
          exact hs (by rw [h0]; exact pyStrip_empty)
  | timeout => exact ⟨_, rfl, by decide⟩
  | notFound =>
      exact ⟨_, rfl, append_ne_empty_left _ _ (append_ne_empty_left _ _
        (append_ne_empty_left _ _ (by decide)))⟩
  | permissionDenied =>
      exact ⟨_, rfl, append_ne_empty_left _ _ (append_ne_empty_left _ _ (by decide))⟩
  | other msg => exact ⟨_, rfl, append_ne_empty_left _ _ (by decide)⟩

/-- C5: after every failed execution of a job's command — including a
command that exits non-zero producing no stderr and no stdout — the
`last_error` recorded by `mark_failed` is a non-empty string of at most
512 characters. -/
theorem worker_lastError_nonempty_capped (acq : AcquiredJob) (base : ℚ)
    (outcome : ExecOutcome) (now : ℚ) (store : Store) (j : Job)
    (h : getJob acq.id store = some j)
    (hfail : (classify acq.command outcome).1 ≠ 0) :
    ∃ j' s, getJob acq.id (workerStep acq base outcome now store) = some j'
      ∧ j'.lastError = some s ∧ s ≠ "" ∧ s.length ≤ 512 := by
  obtain ⟨e, he, hne⟩ := classify_error_ne_empty acq.command outcome hfail
  simp only [workerStep]
  rw [if_neg hfail]
  rw [getJob_markJobFailed acq.id (acq.attempts + 1) acq.maxRetries
    (pyOrStr (classify acq.command outcome).2
      ("Command failed with exit code " ++ toString (classify acq.command outcome).1))
    now (if acq.attempts + 1 < acq.maxRetries then base ^ (acq.attempts + 1) else 0)
    store j h]
  refine ⟨_, _, rfl, rfl, ?_, pySlice512_length_le _⟩
  rw [he, pyOrStr_of_ne_empty _ _ hne]
  exact pySlice512_ne_empty _ hne

/-- Witness for C5: job `"a"` runs a command exiting 2 with empty stdout
and stderr; the recorded `last_error` is non-empty and at most 512
characters (the synthetic "no error output" text). -/
theorem worker_lastError_nonempty_capped_witness :
    getJob "a" [sampleJob] = some sampleJob
    ∧ ((classify "true" (ExecOutcome.ran 2 "" "")).1 ≠ 0
    ∧ ∃ j' s, getJob "a" (workerStep ⟨"a", "true", 0, 3⟩ 2
          (ExecOutcome.ran 2 "" "") 4 [sampleJob]) = some j'
      ∧ j'.lastError = some s ∧ s ≠ "" ∧ s.length ≤ 512) :=
  ⟨by decide, by decide,
   worker_lastError_nonempty_capped ⟨"a", "true", 0, 3⟩ 2
     (ExecOutcome.ran 2 "" "") 4 [sampleJob] sampleJob (by decide) (by decide)⟩

/-- Counterexample for C7: a control file whose content is well-formed
JSON but not an object (here the array `[]`) makes the stop check raise
`AttributeError` (`payload.get` on a non-dict) instead of being treated as
`stop = false`: the check crashes, returning neither `false` nor `true`. -/
theorem shouldStop_nonobject_counterexample :
    shouldStop false (some (Except.ok (JVal.arr [])))
      = Except.error RuntimeErr.attributeError
    ∧ (Except.error RuntimeErr.attributeError
        ≠ (Except.ok false : Except RuntimeErr Bool))
    ∧ (Except.error RuntimeErr.attributeError
        ≠ (Except.ok true : Except RuntimeErr Bool)) :=
  ⟨rfl, fun h => Except.noConfusion h, fun h => Except.noConfusion h⟩

/-- C7 (amended): the stop check treats a control file that is missing or
fails to parse as JSON as `stop = false` without crashing, and it returns
true exactly when the in-memory stop flag is set or the file parses to a
JSON object whose `stop` field is truthy; content parsing to a non-object
JSON value, however, raises `AttributeError`. -/
theorem shouldStop_spec (sr : Bool) (content : Option (Except Unit JVal)) :
    (shouldStop sr content = Except.ok true ↔
       sr = true ∨ ∃ fields, content = some (Except.ok (JVal.obj fields))
         ∧ stopFieldTruthy fields = true)
    ∧ (sr = false → (content = none ∨ ∃ e, content = some (Except.error e)) →
        shouldStop sr content = Except.ok false) := by
  cases sr with
  | true =>
      refine ⟨?_, ?_⟩
      · simp [shouldStop]
      · intro h
        exact absurd h (by simp)
  | false =>
      refine ⟨⟨?_, ?_⟩, ?_⟩
      · intro h
        rcases content with _ | ce
        · exact absurd h (by simp [shouldStop])
        rcases ce with e | v
        · exact absurd h (by simp [shouldStop])
        cases v with
        | obj fields =>
            right
            refine ⟨fields, rfl, ?_⟩
            simpa [shouldStop] using h
        | null => exact absurd h (by simp [shouldStop])
        | bool b => exact absurd h (by simp [shouldStop])
        | int n => exact absurd h (by simp [shouldStop])
        | str s => exact absurd h (by simp [shouldStop])
        | arr l => exact absurd h (by simp [shouldStop])
      · rintro (h | ⟨fields, rfl, ht⟩)
        · exact absurd h (by simp)
        · simp [shouldStop, ht]
      · rintro - (rfl | ⟨e, rfl⟩)
        · rfl
        · rfl

/-- Witness for C7 (amended): with the flag clear and no control file the
check reports no stop. -/
theorem shouldStop_spec_witness :
    shouldStop false none = Except.ok false :=
  (shouldStop_spec false none).2 rfl (Or.inl rfl)

/-- C8 (amended): for every enqueue request whose command is absent — no
`command` key in the JSON payload and no non-empty `--command` option (an
empty option is falsy and ignored by the source) — enqueue fails with
`BadParameter` ("InvalidArgument") before its only write, so no job is
inserted.  (The original claim also covered an explicitly empty `command`
value in the JSON payload; see the counterexample: such a payload is
accepted and a job with an empty command is stored.) -/
theorem cliEnqueue_missing_command (jsonPayload : Payload)
    (idOpt commandOpt : Option String) (maxRetriesOpt : Option Int)
    (genId : String) (cfgMaxRetries : Int) (now : ℚ) (store : Store)
    (hjson : jsonPayload.command = none)
    (hopt : commandOpt = none ∨ commandOpt = some "") :
    cliEnqueue jsonPayload idOpt commandOpt maxRetriesOpt genId cfgMaxRetries
        now store
      = Except.error (CliError.badParameter "Command is required") := by
  rcases hopt with rfl | rfl
  · cases idOpt with
    | none => simp [cliEnqueue, hjson]
    | some s =>
        by_cases hs : s = ""
        · simp [cliEnqueue, hjson, hs]
        · simp [cliEnqueue, hjson, hs]
  · cases idOpt with
    | none => simp [cliEnqueue, hjson]
    | some s =>
        by_cases hs : s = ""
        · simp [cliEnqueue, hjson, hs]
        · simp [cliEnqueue, hjson, hs]

/-- Witness for C8 (amended): a payload carrying only an id, with an empty
`--command` option, is rejected with "Command is required". -/
theorem cliEnqueue_missing_command_witness :
    ({ id := some "x" } : Payload).command = none
    ∧ cliEnqueue { id := some "x" } none (some "") none "job-2" 3 0 []
        = Except.error (CliError.badParameter "Command is required") :=
  ⟨rfl, cliEnqueue_missing_command { id := some "x" } none (some "") none
    "job-2" 3 0 [] rfl (Or.inr rfl)⟩

/-- The job inserted by the C8 counterexample run: its `command` is the
empty string. -/
def emptyCommandJob : Job :=
  { id := "job-1", command := "", state := .pending, attempts := 0,
    maxRetries := 3, createdAt := 0, updatedAt := 0, availableAt := 0,
    processingStartedAt := none, completedAt := none, lastError := none }

/-- Counterexample for C8: a JSON payload whose `command` key holds the
empty string passes the `"command" not in payload` check, so enqueue
succeeds and inserts a job whose stored command is empty — the claim's
"fails with InvalidArgument and no job is inserted" and "the command
stored for an accepted job is non-empty" both fail at this input. -/
theorem cliEnqueue_empty_command_counterexample :
    cliEnqueue { command := some "" } none none none "job-1" 3 0 []
      = Except.ok ([emptyCommandJob], "job-1")
    ∧ emptyCommandJob.command = "" :=
  ⟨rfl, rfl⟩
